import Mathlib

/-!
Verification of the pendulum-period analysis scripts.

The repository contains several independent scripts that compute the period
of a nonlinear pendulum three ways (small-angle approximation, fourth-order
series approximation, numerical evaluation of the elliptic integral) and
compare them.  This file shallowly embeds the arithmetic core of those
scripts and proves or refutes the specification's claims about them.

Conventions:
* exact-arithmetic quantities (grids, validators, error aggregation) are
  embedded over the rationals so that they are executable;
* transcendental quantities (cos, sqrt, pi) are embedded over the reals;
* each implementation variant lives in its own namespace named after the
  directory it comes from (Gpt5, Glm, Sonnet, Kimik2).
-/

namespace Pendulum

/-- Embedding of the linspace helper of
the gpt5highthinkingtest script: for a sample count n it returns the list
of values a + i * (b - a) / (n - 1) for i in range n, with the n = 1 case
special-cased to the single left endpoint. -/
def linspace (a b : ℚ) (n : ℕ) : List ℚ :=
  if n = 1 then [a]
  else (List.range n).map (fun i : ℕ => a + (i : ℚ) * ((b - a) / ((n : ℚ) - 1)))

namespace Gpt5

/-- Embedding of the validate_inputs function of the gpt5highthinkingtest
script: it raises (models raise ValueError via Except.error) when
integral_steps is odd, when the degree range fails 0 < low < high <= 89.999,
or when sample_count < 4, checked in that order. -/
def validate_inputs (steps : ℤ) (low high : ℚ) (sample : ℤ) : Except String Unit :=
  if steps % 2 ≠ 0 then Except.error "integral_steps must be even for Simpson rule"
  else if ¬(0 < low ∧ low < high ∧ high ≤ 89.999) then
    Except.error "Degree range must satisfy 0<low<high<=89.999"
  else if sample < 4 then Except.error "sample_count must be at least 4"
  else Except.ok ()

end Gpt5

namespace Sonnet

/-- Embedding of the validate_inputs function of the sonnet4.5thinkingtest
script: its asserts require integral_steps even, theta_low < theta_high,
sample_count >= 4 and integral_steps >= 100; it never constrains the upper
angle against 90 nor the lower angle against 0. -/
def validate_inputs (steps : ℤ) (low high : ℚ) (sample : ℤ) : Except String Unit :=
  if steps % 2 ≠ 0 then Except.error "integral_steps must be even"
  else if ¬(low < high) then Except.error "theta_low must be less than theta_high"
  else if sample < 4 then Except.error "sample_count must be at least 4"
  else if steps < 100 then Except.error "integral_steps must be sufficient"
  else Except.ok ()

end Sonnet

end Pendulum

namespace Pendulum

/-- Relative-error sequence of the scripts: elementwise
abs (approx - exact) / exact over two parallel lists (gpt5 lines 76-77,
glm task 91, sonnet task 6). -/
def errList (approx exact : List ℚ) : List ℚ :=
  List.zipWith (fun t0 tn => |t0 - tn| / tn) approx exact

/-- Maximum of a list as Python max computes it on a nonempty list
(0 on the empty list, which the scripts never pass). -/
def maxList : List ℚ → ℚ
  | [] => 0
  | x :: xs => xs.foldl max x

namespace Gpt5

/-- Embedding of the summary block of the gpt5highthinkingtest main
function (lines 144-154): it takes the maxima of both error sequences but
looks up the angle only for the first index attaining the err_small
maximum; no angle is derived from err_series. -/
def summary (theta T0 Tser Tnum : List ℚ) : ℚ × ℚ × ℚ :=
  let errSmall := errList T0 Tnum
  let errSeries := errList Tser Tnum
  (maxList errSmall, maxList errSeries,
    theta.getD (errSmall.indexOf (maxList errSmall)) 0)

end Gpt5

lemma le_foldl_max_init (xs : List ℚ) (a : ℚ) : a ≤ xs.foldl max a := by
  induction xs generalizing a with
  | nil => exact le_refl a
  | cons x t ih =>
    simp only [List.foldl_cons]
    exact le_trans (le_max_left a x) (ih (max a x))

lemma le_foldl_max (xs : List ℚ) (a x : ℚ) (hx : x ∈ xs) : x ≤ xs.foldl max a := by
  induction xs generalizing a with
  | nil => cases hx
  | cons y t ih =>
    simp only [List.foldl_cons]
    rcases List.mem_cons.mp hx with h | h
    · subst h
      exact le_trans (le_max_right a x) (le_foldl_max_init t (max a x))
    · exact ih (max a y) h

lemma foldl_max_choice (xs : List ℚ) (a : ℚ) :
    xs.foldl max a = a ∨ xs.foldl max a ∈ xs := by
  induction xs generalizing a with
  | nil => exact Or.inl rfl
  | cons y t ih =>
    simp only [List.foldl_cons]
    rcases ih (max a y) with h | h
    · rcases max_choice a y with hm | hm
      · exact Or.inl (by rw [h, hm])
      · exact Or.inr (by rw [h, hm]; exact List.mem_cons_self y t)
    · exact Or.inr (List.mem_cons_of_mem y h)

lemma le_maxList (l : List ℚ) (x : ℚ) (hx : x ∈ l) : x ≤ maxList l := by
  cases l with
  | nil => cases hx
  | cons y t =>
    rcases List.mem_cons.mp hx with h | h
    · subst h
      exact le_foldl_max_init t x
    · exact le_foldl_max t y x h

lemma maxList_mem (l : List ℚ) (hl : l ≠ []) : maxList l ∈ l := by
  cases l with
  | nil => exact absurd rfl hl
  | cons y t =>
    show t.foldl max y ∈ y :: t
    rcases foldl_max_choice t y with h | h
    · rw [h]; exact List.mem_cons_self y t
    · exact List.mem_cons_of_mem y h

lemma getD_ne_of_lt_indexOf (l : List ℚ) (x : ℚ) (j : ℕ) (hj : j < l.indexOf x) :
    l.getD j 0 ≠ x := by
  induction l generalizing j with
  | nil => simp [List.indexOf_nil] at hj
  | cons a t ih =>
    by_cases hax : a = x
    · subst hax
      rw [List.indexOf_cons_self] at hj
      exact absurd hj (Nat.not_lt_zero j)
    · rw [List.indexOf_cons_ne t hax] at hj
      cases j with
      | zero => simpa using hax
      | succ j => exact ih j (Nat.lt_of_succ_lt_succ hj)

/-- Claim C4: as stated the claim is false.  The error sequences are
computed as claimed, but the gpt5 summary reports only one angle, derived
from the err_small maximum; when the err_series maximum occurs at a
different index the angle of the err_series maximum is not reported.  With
theta = [1, 2], T_small = [1, 1], T_series = [1, 4], T_exact = [1, 1] the
err_small maximum is at angle 1 while the err_series maximum is at
angle 2, and the summary's angle field is 1, not 2. -/
theorem claim4_counterexample :
    (Gpt5.summary [1, 2] [1, 1] [1, 4] [1, 1]).2.2 ≠
      ([1, 2] : List ℚ).getD
        ((errList [1, 4] [1, 1]).indexOf (maxList (errList [1, 4] [1, 1]))) 0 := by
  have h1 : errList [1, 4] [1, 1] = [0, 3] := by
    simp only [errList, List.zipWith]
    norm_num
  have h0 : errList [1, 1] [1, 1] = [0, 0] := by
    simp only [errList, List.zipWith]
    norm_num
  have hm1 : maxList ([0, 3] : List ℚ) = 3 := by
    show max (0 : ℚ) 3 = 3
    norm_num
  have hm0 : maxList ([0, 0] : List ℚ) = 0 := by
    show max (0 : ℚ) 0 = 0
    norm_num
  have hi1 : ([0, 3] : List ℚ).indexOf 3 = 1 := by
    rw [List.indexOf_cons_ne _ (by norm_num : (0 : ℚ) ≠ 3), List.indexOf_cons_self]
  have hi0 : ([0, 0] : List ℚ).indexOf 0 = 0 := List.indexOf_cons_self 0 [0]
  simp only [Gpt5.summary, h1, h0, hm1, hm0, hi1, hi0]
  norm_num

/-- Claim C4 (amended): the error sequences are computed elementwise as
err[i] = abs (approx[i] - exact[i]) / exact[i]; maxList returns the
maximum of a nonempty list and indexOf its first occurrence (indices
before it never attain the maximum), so the reported angle is the
increasing-angle tie-break of the err_small maximum; but the gpt5 summary
reports the maxima of both error sequences together with only this one
angle, and no angle for the err_series maximum. -/
theorem claim4_theorem :
    (∀ (T0 Tnum : List ℚ) (i : ℕ), i < T0.length → i < Tnum.length →
      (errList T0 Tnum).getD i 0 = |T0.getD i 0 - Tnum.getD i 0| / Tnum.getD i 0) ∧
    (∀ (l : List ℚ) (x : ℚ), x ∈ l → x ≤ maxList l) ∧
    (∀ l : List ℚ, l ≠ [] → maxList l ∈ l) ∧
    (∀ (l : List ℚ) (x : ℚ) (j : ℕ), j < l.indexOf x → l.getD j 0 ≠ x) ∧
    (∀ theta T0 Tser Tnum : List ℚ,
      Gpt5.summary theta T0 Tser Tnum =
        (maxList (errList T0 Tnum), maxList (errList Tser Tnum),
          theta.getD ((errList T0 Tnum).indexOf (maxList (errList T0 Tnum))) 0)) := by
  refine ⟨?_, le_maxList, maxList_mem, getD_ne_of_lt_indexOf, fun _ _ _ _ => rfl⟩
  intro T0 Tnum i h0 hn
  have hlen : i < (errList T0 Tnum).length := by
    simpa [errList, List.length_zipWith] using lt_min h0 hn
  rw [List.getD_eq_getElem _ _ hlen, List.getD_eq_getElem _ _ h0,
    List.getD_eq_getElem _ _ hn]
  simp [errList]

/-- Claim C4 witness: the pieces of the amended claim evaluated at concrete
inputs. -/
theorem claim4_witness :
    (errList [3] [2]).getD 0 0 = |([3] : List ℚ).getD 0 0 - ([2] : List ℚ).getD 0 0| /
      ([2] : List ℚ).getD 0 0 ∧
    (1 : ℚ) ≤ maxList [1] ∧
    maxList [1] ∈ ([1] : List ℚ) ∧
    ([0, 5] : List ℚ).getD 0 0 ≠ 5 :=
  ⟨claim4_theorem.1 [3] [2] 0 (by norm_num) (by norm_num),
   claim4_theorem.2.1 [1] 1 (by simp),
   claim4_theorem.2.2.1 [1] (by simp),
   claim4_theorem.2.2.2.1 [0, 5] 5 0 (by
      rw [List.indexOf_cons_ne _ (by norm_num : (0 : ℚ) ≠ 5), List.indexOf_cons_self]
      norm_num)⟩

namespace Gpt5

/-- Embedding of the integrand f inside compute_true_period of the
gpt5highthinkingtest script (lines 47-49) and of the integrand f of the
gemini2.5prothinkingtest script (lines 46-49): the denominator term
cos theta - cos theta0 is clamped from below by epsilon before the square
root is taken, at every evaluation point. -/
noncomputable def f (eps th0 th : ℝ) : ℝ :=
  1 / Real.sqrt (2 * max (Real.cos th - Real.cos th0) eps)

/-- Embedding of simpson_integral (gpt5 lines 33-40): s starts from
fn a + fn b, each interior node i in [1, n) contributes weight 4 when i is
odd and 2 when i is even, and the total is scaled by h / 3 with
h = (b - a) / n. -/
noncomputable def simpson_integral (fn : ℝ → ℝ) (a b : ℝ) (n : ℕ) : ℝ :=
  (fn a + fn b +
      ∑ i ∈ Finset.Ico 1 n,
        (if i % 2 = 1 then (4 : ℝ) else 2) * fn (a + (i : ℝ) * ((b - a) / (n : ℝ)))) *
    ((b - a) / (n : ℝ)) / 3

/-- Embedding of compute_true_period (gpt5 lines 43-52):
4 * sqrt (L / g) times the Simpson integral of the clamped integrand over
[0, theta0]. -/
noncomputable def compute_true_period (L g eps th0 : ℝ) (n : ℕ) : ℝ :=
  4 * Real.sqrt (L / g) * simpson_integral (f eps th0) 0 th0 n

/-- Embedding of T0_const (gpt5 line 63): the small-angle period. -/
noncomputable def T0_const (L g : ℝ) : ℝ := 2 * Real.pi * Real.sqrt (L / g)

end Gpt5

/-- Modelled from the spec wording of composite Simpson weighting, for the
refinement comparison of claim C1: endpoints weight 1, odd-indexed interior
points weight 4, even-indexed interior points weight 2, scaled by h / 3
with h = (b - a) / n. -/
noncomputable def simpsonRuleSpec (fn : ℝ → ℝ) (a b : ℝ) (n : ℕ) : ℝ :=
  (b - a) / (n : ℝ) / 3 *
    ∑ i ∈ Finset.range (n + 1),
      (if i = 0 ∨ i = n then (1 : ℝ) else if i % 2 = 1 then 4 else 2) *
        fn (a + (i : ℝ) * ((b - a) / (n : ℝ)))

namespace Glm

/-- Embedding of compute_integral_simpson of the glm4.6thinkingtest script
(lines 39-71): the same Simpson weights, but the integrand has no epsilon
clamp and the upper endpoint node i = steps is special-cased to the value
0 to avoid the division by zero. -/
noncomputable def compute_integral_simpson (th0 : ℝ) (steps : ℕ) : ℝ :=
  (∑ i ∈ Finset.range (steps + 1),
      (if i = 0 ∨ i = steps then (1 : ℝ) else if i % 2 = 1 then 4 else 2) *
        (if i = steps then 0
         else 1 / Real.sqrt (2 * (Real.cos ((i : ℝ) * (th0 / (steps : ℝ))) - Real.cos th0)))) *
    (th0 / (steps : ℝ) / 3)

/-- Embedding of the T_num assembly of the glm script (line 77). -/
noncomputable def T_num (L g th0 : ℝ) (steps : ℕ) : ℝ :=
  4 * Real.sqrt (L / g) * compute_integral_simpson th0 steps

end Glm

namespace Sonnet

/-- Embedding of the AGM loop of compute_T_numerical of the
sonnet4.5thinkingtest script (lines 80-93): up to 25 iterations of
a, b := (a + b) / 2, sqrt (a * b), stopping early and returning the
current a when the next a differs from it by less than 1e-15. -/
noncomputable def agmIter : ℕ → ℝ → ℝ → ℝ
  | 0, a, _ => a
  | k + 1, a, b =>
    if |(a + b) / 2 - a| < 1e-15 then a
    else agmIter k ((a + b) / 2) (Real.sqrt (a * b))

/-- Embedding of compute_T_numerical (sonnet lines 59-97):
k = sin (theta0 / 2), K(k) = pi / (2 * AGM(1, sqrt (1 - k^2))), and
T = 4 * sqrt (L / g) * K(k). -/
noncomputable def compute_T_numerical (L g th0 : ℝ) : ℝ :=
  4 * Real.sqrt (L / g) *
    (Real.pi / (2 * agmIter 25 1 (Real.sqrt (1 - Real.sin (th0 / 2) ^ 2))))

end Sonnet

namespace Kimik2

/-- Embedding of the integrand of the kimik2thinkingtest script
(lines 31-44): the transformed elliptic integrand
1 / sqrt (1 - (k * sin phi)^2). -/
noncomputable def integrand (phi k : ℝ) : ℝ :=
  1 / Real.sqrt (1 - (k * Real.sin phi) ^ 2)

/-- Embedding of simpson_integration of the kimik2 script (lines 46-76):
endpoint values plus 4 times the odd nodes of range(1, n, 2) plus 2 times
the even nodes of range(2, n, 2), scaled by h / 3. -/
noncomputable def simpson_integration (fn : ℝ → ℝ) (a b : ℝ) (n : ℕ) : ℝ :=
  (fn a + fn b +
      4 * ∑ i ∈ (Finset.range n).filter (fun i => i % 2 = 1),
            fn (a + (i : ℝ) * ((b - a) / (n : ℝ))) +
      2 * ∑ i ∈ (Finset.range n).filter (fun i => i % 2 = 0 ∧ i ≠ 0),
            fn (a + (i : ℝ) * ((b - a) / (n : ℝ)))) *
    ((b - a) / (n : ℝ)) / 3

/-- Embedding of compute_T_series of the kimik2 script (lines 24-29). -/
noncomputable def compute_T_series (T0 th : ℝ) : ℝ :=
  T0 * (1 + th ^ 2 / 16 + 11 * th ^ 4 / 3072)

/-- Embedding of compute_T_num of the kimik2 script (lines 78-105): the
zero angle is special-cased to the exact small-angle period, otherwise the
transformed integrand is integrated over [0, pi / 2] by Simpson's rule.
The eps parameter is kept but unused, as in the source. -/
noncomputable def compute_T_num (L g th0 : ℝ) (n : ℕ) (_eps : ℝ) : ℝ :=
  if th0 = 0 then 2 * Real.pi * Real.sqrt (L / g)
  else 4 * Real.sqrt (L / g) *
    simpson_integration (fun phi => integrand phi (Real.sin (th0 / 2))) 0 (Real.pi / 2) n

end Kimik2

/-- Radian grid of the scripts: every degree value of the linspace grid is
multiplied by pi / 180 (glm line 22; gpt5 uses math.radians, which is the
same transform). -/
noncomputable def thetaRadList (a b : ℚ) (n : ℕ) : List ℝ :=
  (linspace a b n).map (fun d : ℚ => (Rat.cast d : ℝ) * Real.pi / 180)

namespace Gpt5

/-- Embedding of the T0 list (gpt5 line 64): the small-angle period
broadcast over the radian grid. -/
noncomputable def T0list (L g : ℝ) (a b : ℚ) (n : ℕ) : List ℝ :=
  (thetaRadList a b n).map (fun _ => T0_const L g)

/-- Embedding of the T_series list (gpt5 lines 67-70). -/
noncomputable def TseriesList (L g : ℝ) (a b : ℚ) (n : ℕ) : List ℝ :=
  (thetaRadList a b n).map
    (fun th => T0_const L g * (1 + th ^ 2 / 16 + 11 * th ^ 4 / 3072))

end Gpt5

lemma linspace_length (a b : ℚ) (n : ℕ) (hn1 : n ≠ 1) : (linspace a b n).length = n := by
  rw [linspace, if_neg hn1]
  simp

lemma linspace_getD (a b : ℚ) (n : ℕ) (hn1 : n ≠ 1) (i : ℕ) (hi : i < n) :
    (linspace a b n).getD i 0 = a + (i : ℚ) * ((b - a) / ((n : ℚ) - 1)) := by
  rw [linspace, if_neg hn1]
  have hlen : i < ((List.range n).map
      fun i : ℕ => a + (i : ℚ) * ((b - a) / ((n : ℚ) - 1))).length := by
    simpa using hi
  rw [List.getD_eq_getElem _ _ hlen, List.getElem_map, List.getElem_range]

/-- Claim C5: for angle_low_deg < angle_high_deg and sample_count >= 4 the
grid generator produces exactly sample_count values following the linear
interpolation formula, strictly increasing, starting at the low endpoint,
ending exactly at the high endpoint, and the radian grid multiplies each
entry by pi / 180. -/
theorem claim5_theorem (a b : ℚ) (n : ℕ) (hab : a < b) (hn : 4 ≤ n) :
    (linspace a b n).length = n ∧
    (∀ i : ℕ, i < n → (linspace a b n).getD i 0 = a + (i : ℚ) * ((b - a) / ((n : ℚ) - 1))) ∧
    (∀ i j : ℕ, i < j → j < n →
      (linspace a b n).getD i 0 < (linspace a b n).getD j 0) ∧
    (linspace a b n).getD 0 0 = a ∧
    (linspace a b n).getD (n - 1) 0 = b ∧
    (∀ i : ℕ, i < n →
      (thetaRadList a b n).getD i 0 =
        (Rat.cast ((linspace a b n).getD i 0) : ℝ) * Real.pi / 180) := by
  have hn1 : n ≠ 1 := by omega
  have hn4 : (4 : ℚ) ≤ (n : ℚ) := by exact_mod_cast hn
  have hden : (0 : ℚ) < (n : ℚ) - 1 := by linarith
  have hstep : 0 < (b - a) / ((n : ℚ) - 1) := div_pos (by linarith) hden
  refine ⟨linspace_length a b n hn1, fun i hi => linspace_getD a b n hn1 i hi, ?_, ?_, ?_, ?_⟩
  · intro i j hij hj
    rw [linspace_getD a b n hn1 i (lt_trans hij hj), linspace_getD a b n hn1 j hj]
    have hijq : (i : ℚ) < (j : ℚ) := by exact_mod_cast hij
    have := mul_lt_mul_of_pos_right hijq hstep
    linarith
  · rw [linspace_getD a b n hn1 0 (by omega)]
    simp
  · rw [linspace_getD a b n hn1 (n - 1) (by omega)]
    have hcast : ((n - 1 : ℕ) : ℚ) = (n : ℚ) - 1 := by
      have h1 : 1 ≤ n := by omega
      push_cast [h1]
      ring
    rw [hcast]
    field_simp
  · intro i hi
    have hlen : i < (linspace a b n).length := by rw [linspace_length a b n hn1]; exact hi
    have hlen2 : i < (thetaRadList a b n).length := by
      rw [thetaRadList, List.length_map, linspace_length a b n hn1]
      exact hi
    rw [List.getD_eq_getElem _ _ hlen2, List.getD_eq_getElem _ _ hlen]
    simp [thetaRadList]

/-- Claim C5 witness: instantiated at the concrete run configuration
low = 5, high = 60, sample_count = 12. -/
theorem claim5_witness :
    (5 : ℚ) < 60 ∧ (4 : ℕ) ≤ 12 ∧ (linspace 5 60 12).length = 12 ∧
    (linspace 5 60 12).getD 0 0 = 5 ∧ (linspace 5 60 12).getD 11 0 = 60 := by
  have h := claim5_theorem 5 60 12 (by norm_num) (by norm_num)
  exact ⟨by norm_num, by norm_num, h.1, h.2.2.2.1, h.2.2.2.2.1⟩

/-- Claim C3: as stated the claim is false.  It says the validator raises
exactly when integration_steps is odd, or angle_low_deg is not strictly
between 0 and angle_high_deg, or angle_high_deg >= 90, or sample_count < 4,
and otherwise returns normally.  The gpt5 validator rejects the
configuration steps = 2000, low = 5, high = 89.9995, sample = 12 even
though none of those four conditions holds (89.9995 < 90), and the sonnet
validator accepts high = 100 >= 90. -/
theorem claim3_counterexample :
    Gpt5.validate_inputs 2000 5 (89.9995) 12 ≠ Except.ok () ∧
    (2000 : ℤ) % 2 = 0 ∧ (0 : ℚ) < 5 ∧ (5 : ℚ) < 89.9995 ∧ (89.9995 : ℚ) < 90 ∧
    ¬((12 : ℤ) < 4) ∧
    Sonnet.validate_inputs 2000 5 100 12 = Except.ok () ∧ (90 : ℚ) ≤ 100 := by
  refine ⟨?_, by norm_num, by norm_num, by norm_num, by norm_num, by norm_num, ?_, by norm_num⟩
  · simp only [Gpt5.validate_inputs]
    norm_num
    intro h
    exact Except.noConfusion h
  · simp only [Sonnet.validate_inputs]
    norm_num

/-- Claim C3 (amended): the gpt5 validator returns normally exactly when
integration_steps is even, 0 < angle_low_deg < angle_high_deg <= 89.999 and
sample_count >= 4 (so it also rejects angle_high_deg in (89.999, 90)); the
sonnet validator returns normally exactly when integration_steps is even
and at least 100, angle_low_deg < angle_high_deg and sample_count >= 4 (it
does not bound the angles by 0 or 90).  Each failed condition independently
produces the error. -/
theorem claim3_theorem (steps : ℤ) (low high : ℚ) (sample : ℤ) :
    (Gpt5.validate_inputs steps low high sample = Except.ok () ↔
      (steps % 2 = 0 ∧ 0 < low ∧ low < high ∧ high ≤ 89.999 ∧ ¬(sample < 4))) ∧
    (Sonnet.validate_inputs steps low high sample = Except.ok () ↔
      (steps % 2 = 0 ∧ low < high ∧ ¬(sample < 4) ∧ 100 ≤ steps)) := by
  constructor
  · simp only [Gpt5.validate_inputs]
    split_ifs with h1 h2 h3 <;> simp_all
  · simp only [Sonnet.validate_inputs]
    split_ifs with h1 h2 h3 h4 <;> simp_all

end Pendulum

namespace Pendulum

/-- Claim C2: as stated the claim is false.  At theta0 = 0 the Strategy B
evaluators do return T_small exactly, but Strategy A's regularized Simpson
quadrature over the zero-length interval [0, 0] has step h = 0 and returns
0, not T_small: with L = g = 1 the gpt5 evaluator returns 0 while
T_small = 2 * pi > 0. -/
theorem claim2_counterexample :
    Gpt5.compute_true_period 1 1 (1e-10) 0 2000 ≠ Gpt5.T0_const 1 1 := by
  have h0 : Gpt5.compute_true_period 1 1 (1e-10) 0 2000 = 0 := by
    rw [Gpt5.compute_true_period, Gpt5.simpson_integral]
    norm_num
  have hpos : 0 < Gpt5.T0_const 1 1 := by
    rw [Gpt5.T0_const]
    have h1 : (0 : ℝ) < 1 / 1 := by norm_num
    positivity
  rw [h0]
  exact ne_of_lt hpos

/-- Claim C2 (amended): at theta0 = 0 the Strategy B evaluators return
T_small = 2 * pi * sqrt (L / g) exactly, for every L, g: the kimik2
evaluator through its explicit zero test and the sonnet AGM evaluator
because k = sin 0 = 0 makes the very first AGM update a fixed point, so
the loop breaks with agm = 1 and K(0) = pi / 2.  Strategy A's gpt5
evaluator instead returns 0 at theta0 = 0, since its integration step
h = theta0 / n vanishes. -/
theorem claim2_theorem (L g eps : ℝ) (n : ℕ) :
    Kimik2.compute_T_num L g 0 n eps = 2 * Real.pi * Real.sqrt (L / g) ∧
    Sonnet.compute_T_numerical L g 0 = 2 * Real.pi * Real.sqrt (L / g) ∧
    Gpt5.compute_true_period L g eps 0 n = 0 := by
  refine ⟨?_, ?_, ?_⟩
  · rw [Kimik2.compute_T_num, if_pos rfl]
  · rw [Sonnet.compute_T_numerical]
    have hsin : Real.sin ((0 : ℝ) / 2) = 0 := by
      norm_num
    rw [hsin]
    have harg : (1 : ℝ) - 0 ^ 2 = 1 := by norm_num
    rw [harg, Real.sqrt_one]
    have hagm : Sonnet.agmIter 25 1 1 = 1 := by
      rw [show (25 : ℕ) = 24 + 1 from rfl, Sonnet.agmIter]
      rw [if_pos]
      rw [show |((1 : ℝ) + 1) / 2 - 1| = 0 by norm_num]
      norm_num
    rw [hagm]
    ring
  · rw [Gpt5.compute_true_period, Gpt5.simpson_integral]
    norm_num

lemma map_const_eq_replicate (l : List ℝ) (c : ℝ) :
    l.map (fun _ => c) = List.replicate l.length c := by
  induction l with
  | nil => rfl
  | cons x t ih => simp [List.replicate, ih]

/-- Claim C7: the small-angle period is T_small = 2 * pi * sqrt (L / g),
a single constant broadcast to every angle sample, and for L = 1 and
g = 9.80665 it equals 2.0064093 seconds to within 1e-6. -/
theorem claim7_theorem :
    (∀ (L g : ℝ) (a b : ℚ) (n : ℕ),
      Gpt5.T0list L g a b n =
        List.replicate (thetaRadList a b n).length (Gpt5.T0_const L g)) ∧
    Gpt5.T0_const 1 9.80665 = 2 * Real.pi * Real.sqrt (1 / 9.80665) ∧
    |Gpt5.T0_const 1 9.80665 - 2.0064093| ≤ 1e-6 := by
  refine ⟨fun L g a b n => map_const_eq_replicate _ _, rfl, ?_⟩
  rw [Gpt5.T0_const]
  have hs_hi : Real.sqrt (1 / 9.80665) ≤ 0.31933 :=
    (Real.sqrt_le_left (by norm_num)).mpr (by norm_num)
  have hs_lo : (0.3193299 : ℝ) ≤ Real.sqrt (1 / 9.80665) :=
    (Real.le_sqrt (by norm_num) (by norm_num)).mpr (by norm_num)
  have hpi_lo := Real.pi_gt_d6
  have hpi_hi := Real.pi_lt_d6
  have hup : 2 * Real.pi * Real.sqrt (1 / 9.80665) ≤ 2 * 3.141593 * 0.31933 := by
    have h1 : Real.pi * Real.sqrt (1 / 9.80665) ≤ 3.141593 * 0.31933 :=
      mul_le_mul hpi_hi.le hs_hi (Real.sqrt_nonneg _) (by norm_num)
    linarith
  have hlo : 2 * 3.141592 * 0.3193299 ≤ 2 * Real.pi * Real.sqrt (1 / 9.80665) := by
    have h1 : (3.141592 : ℝ) * 0.3193299 ≤ Real.pi * Real.sqrt (1 / 9.80665) :=
      mul_le_mul hpi_lo.le hs_lo (by norm_num) (by linarith [Real.pi_pos])
    linarith
  rw [abs_le]
  constructor <;> nlinarith

/-- Claim C8: the series-corrected period is
T_series(theta) = T_small * (1 + theta^2 / 16 + 11 * theta^4 / 3072) in
closed form: the kimik2 function computes exactly that formula, and the
gpt5 pipeline's T_series list is exactly that function mapped over the
radian grid. -/
theorem claim8_theorem :
    (∀ T0 th : ℝ,
      Kimik2.compute_T_series T0 th = T0 * (1 + th ^ 2 / 16 + 11 * th ^ 4 / 3072)) ∧
    (∀ (L g : ℝ) (a b : ℚ) (n : ℕ),
      Gpt5.TseriesList L g a b n =
        (thetaRadList a b n).map
          (fun th => Kimik2.compute_T_series (Gpt5.T0_const L g) th)) :=
  ⟨fun _ _ => rfl, fun _ _ _ _ _ => rfl⟩

/-- Claim C10: for every positive epsilon and every node, the clamp bounds
the square-root argument below by 2 * epsilon > 0, so the Strategy A
integrand is well defined: the denominator is strictly positive, the value
is strictly positive, and it is bounded above by 1 / sqrt (2 * epsilon). -/
theorem claim10_theorem (eps th0 th : ℝ) (heps : 0 < eps)
    (_hth : th ∈ Set.Icc 0 th0) :
    2 * eps ≤ 2 * max (Real.cos th - Real.cos th0) eps ∧
    0 < Real.sqrt (2 * max (Real.cos th - Real.cos th0) eps) ∧
    0 < Gpt5.f eps th0 th ∧
    Gpt5.f eps th0 th ≤ 1 / Real.sqrt (2 * eps) := by
  have hmax : eps ≤ max (Real.cos th - Real.cos th0) eps := le_max_right _ _
  have h2 : (0 : ℝ) < 2 * max (Real.cos th - Real.cos th0) eps := by nlinarith
  have hsq : 0 < Real.sqrt (2 * max (Real.cos th - Real.cos th0) eps) :=
    Real.sqrt_pos.mpr h2
  have hsq0 : 0 < Real.sqrt (2 * eps) := Real.sqrt_pos.mpr (by nlinarith)
  refine ⟨by nlinarith, hsq, ?_, ?_⟩
  · rw [Gpt5.f]
    exact one_div_pos.mpr hsq
  · rw [Gpt5.f]
    exact one_div_le_one_div_of_le hsq0 (Real.sqrt_le_sqrt (by nlinarith))

/-- Claim C10 witness: the integrand bounds at the concrete node
eps = 1, theta0 = 1, theta = 0. -/
theorem claim10_witness :
    (0 : ℝ) < 1 ∧ (0 : ℝ) ∈ Set.Icc (0 : ℝ) 1 ∧
    (2 * 1 ≤ 2 * max (Real.cos 0 - Real.cos 1) 1 ∧
      0 < Real.sqrt (2 * max (Real.cos 0 - Real.cos 1) 1) ∧
      0 < Gpt5.f 1 1 0 ∧
      Gpt5.f 1 1 0 ≤ 1 / Real.sqrt (2 * 1)) :=
  ⟨by norm_num, by constructor <;> norm_num,
    claim10_theorem 1 1 0 (by norm_num) (by constructor <;> norm_num)⟩

end Pendulum

namespace Pendulum

lemma simpson_spec_eq_integral (fn : ℝ → ℝ) (a b : ℝ) (n : ℕ) (hn : 0 < n) :
    simpsonRuleSpec fn a b n = Gpt5.simpson_integral fn a b n := by
  rw [simpsonRuleSpec, Gpt5.simpson_integral]
  have hn' : 1 ≤ n := hn
  have hcast : ((n : ℝ)) ≠ 0 := Nat.cast_ne_zero.mpr hn.ne'
  have hterm_n :
      (if n = 0 ∨ n = n then (1 : ℝ) else if n % 2 = 1 then 4 else 2) *
          fn (a + (n : ℝ) * ((b - a) / (n : ℝ))) = fn b := by
    rw [if_pos (Or.inr rfl), one_mul]
    congr 1
    field_simp
  have hterm_0 :
      (if 0 = 0 ∨ 0 = n then (1 : ℝ) else if 0 % 2 = 1 then 4 else 2) *
          fn (a + ((0 : ℕ) : ℝ) * ((b - a) / (n : ℝ))) = fn a := by
    rw [if_pos (Or.inl rfl), one_mul]
    norm_num
  have hsplit :
      ∑ i ∈ Finset.range (n + 1),
        (if i = 0 ∨ i = n then (1 : ℝ) else if i % 2 = 1 then 4 else 2) *
          fn (a + (i : ℝ) * ((b - a) / (n : ℝ)))
      = fn a + (∑ i ∈ Finset.Ico 1 n,
          (if i % 2 = 1 then (4 : ℝ) else 2) *
            fn (a + (i : ℝ) * ((b - a) / (n : ℝ)))) + fn b := by
    rw [Finset.sum_range_succ, hterm_n]
    congr 1
    rw [Finset.range_eq_Ico, ← Finset.sum_Ico_consecutive _ (Nat.zero_le 1) hn']
    congr 1
    · rw [← Finset.range_eq_Ico, Finset.sum_range_one]
      exact hterm_0
    · apply Finset.sum_congr rfl
      intro i hi
      obtain ⟨hi1, hin⟩ := Finset.mem_Ico.mp hi
      have h0 : i ≠ 0 := by omega
      have hN : i ≠ n := by omega
      rw [if_neg (by simp [h0, hN])]
  rw [hsplit]
  ring

/-- Claim C1 (amended): for every valid configuration and initial angle,
the gpt5 Strategy A evaluator does return 4 * sqrt (L / g) times the
composite Simpson sum of the epsilon-clamped integrand, with every node
including the upper endpoint clamped; but the glm Strategy A variant,
which the claim also covers, does not (see the counterexample): it applies
no clamp and special-cases the upper endpoint node to 0. -/
theorem claim1_theorem (L g eps th0 : ℝ) (n : ℕ) (_heps : 0 < eps) (hn : 0 < n)
    (_hev : Even n) (_hth0 : 0 < th0) (_hth1 : th0 < Real.pi / 2) :
    Gpt5.compute_true_period L g eps th0 n =
      4 * Real.sqrt (L / g) * simpsonRuleSpec (Gpt5.f eps th0) 0 th0 n := by
  rw [Gpt5.compute_true_period, simpson_spec_eq_integral _ _ _ _ hn]

/-- Claim C1 witness: the amended equality at the concrete configuration
L = g = eps = 1, theta0 = 1, n = 2. -/
theorem claim1_witness :
    (0 : ℝ) < 1 ∧ (0 : ℕ) < 2 ∧ Even 2 ∧ (1 : ℝ) < Real.pi / 2 ∧
    Gpt5.compute_true_period 1 1 1 1 2 =
      4 * Real.sqrt (1 / 1) * simpsonRuleSpec (Gpt5.f 1 1) 0 1 2 :=
  ⟨by norm_num, by norm_num, by decide, by nlinarith [Real.pi_gt_three],
    claim1_theorem 1 1 1 1 2 (by norm_num) (by norm_num) (by decide)
      (by norm_num) (by nlinarith [Real.pi_gt_three])⟩

/-- Claim C1: as stated over all the cited Strategy A implementations the
claim is false.  The glm evaluator does not clamp the integrand with
epsilon and substitutes 0 at the singular upper endpoint, so at the valid
configuration L = 1, g = 9.80665, eps = 1e-10, theta0 = pi / 3,
integration_steps = 2, its result differs from 4 * sqrt (L / g) times the
Simpson sum of the clamped integrand: the two agree on all interior nodes
(the clamp is inert there) but differ by the positive endpoint
contribution. -/
lemma sum_simpson_two (fn : ℝ → ℝ) (a b : ℝ) :
    simpsonRuleSpec fn a b 2 =
      (b - a) / 2 / 3 * (fn a + 4 * fn (a + (b - a) / 2) + fn b) := by
  rw [simpsonRuleSpec]
  rw [Finset.sum_range_succ, Finset.sum_range_succ, Finset.sum_range_one]
  norm_num
  ring_nf
  exact Or.inl trivial

lemma glm_integral_two (th0 : ℝ) :
    Glm.compute_integral_simpson th0 2 =
      (1 / Real.sqrt (2 * (Real.cos 0 - Real.cos th0)) +
        4 * (1 / Real.sqrt (2 * (Real.cos (th0 / 2) - Real.cos th0)))) *
        (th0 / 2 / 3) := by
  rw [Glm.compute_integral_simpson]
  rw [Finset.sum_range_succ, Finset.sum_range_succ, Finset.sum_range_one]
  norm_num

/-- Claim C1: as stated over all the cited Strategy A implementations the
claim is false.  The glm evaluator does not clamp the integrand with
epsilon and substitutes 0 at the singular upper endpoint, so at the valid
configuration L = 1, g = 9.80665, eps = 1e-10, theta0 = pi / 3,
integration_steps = 2, its result differs from 4 * sqrt (L / g) times the
Simpson sum of the clamped integrand: the two agree on all interior nodes
(the clamp is inert there) but differ by the positive endpoint
contribution. -/
theorem claim1_counterexample :
    Glm.T_num 1 9.80665 (Real.pi / 3) 2 ≠
      4 * Real.sqrt (1 / 9.80665) *
        simpsonRuleSpec (Gpt5.f (1e-10) (Real.pi / 3)) 0 (Real.pi / 3) 2 := by
  have hs : (0 : ℝ) < Real.sqrt (1 / 9.80665) := Real.sqrt_pos.mpr (by norm_num)
  have h3l : (1.7 : ℝ) < Real.sqrt 3 := (Real.lt_sqrt (by norm_num)).mpr (by norm_num)
  have hmax1 : max (Real.cos 0 - Real.cos (Real.pi / 3)) (1e-10 : ℝ)
      = Real.cos 0 - Real.cos (Real.pi / 3) := by
    apply max_eq_left
    rw [Real.cos_zero, Real.cos_pi_div_three]
    norm_num
  have hmax2 : max (Real.cos (Real.pi / 6) - Real.cos (Real.pi / 3)) (1e-10 : ℝ)
      = Real.cos (Real.pi / 6) - Real.cos (Real.pi / 3) := by
    apply max_eq_left
    rw [Real.cos_pi_div_six, Real.cos_pi_div_three]
    nlinarith
  have hmax3 : max (Real.cos (Real.pi / 3) - Real.cos (Real.pi / 3)) (1e-10 : ℝ)
      = (1e-10 : ℝ) := by
    apply max_eq_right
    norm_num
  rw [Glm.T_num, glm_integral_two, sum_simpson_two]
  simp only [Gpt5.f]
  rw [show Real.pi / 3 / 2 = Real.pi / 6 by ring,
    show (0 : ℝ) + (Real.pi / 3 - 0) / 2 = Real.pi / 6 by ring,
    hmax1, hmax2, hmax3]
  set A : ℝ := 1 / Real.sqrt (2 * (Real.cos 0 - Real.cos (Real.pi / 3))) with hA
  set B : ℝ := 1 / Real.sqrt (2 * (Real.cos (Real.pi / 6) - Real.cos (Real.pi / 3))) with hB
  set q : ℝ := 1 / Real.sqrt (2 * 1e-10) with hq
  set s : ℝ := Real.sqrt (1 / 9.80665) with hsdef
  have hqpos : (0 : ℝ) < q := by
    rw [hq]
    exact one_div_pos.mpr (Real.sqrt_pos.mpr (by norm_num))
  apply ne_of_lt
  have hdiff :
      4 * s * ((Real.pi / 3 - 0) / 2 / 3 * (A + 4 * B + q)) -
        4 * s * ((A + 4 * B) * (Real.pi / 3 / 2 / 3)) =
      4 * s * (Real.pi / 18) * q := by
    ring
  have hpos : 0 < 4 * s * (Real.pi / 18) * q := by
    have hpi := Real.pi_pos
    positivity
  linarith [hdiff, hpos]

end Pendulum

namespace Pendulum

lemma sqrt_mul_le_half_add (x y : ℝ) (hx : 0 ≤ x) (hy : 0 ≤ y) :
    Real.sqrt (x * y) ≤ (x + y) / 2 := by
  have h : x * y ≤ ((x + y) / 2) ^ 2 := by nlinarith [sq_nonneg (x - y)]
  calc Real.sqrt (x * y) ≤ Real.sqrt (((x + y) / 2) ^ 2) := Real.sqrt_le_sqrt h
    _ = (x + y) / 2 := Real.sqrt_sq (by positivity)

lemma agmIter_bounds (k : ℕ) (a b : ℝ) (hb : 0 < b) (hba : b ≤ a) :
    b ≤ Sonnet.agmIter k a b ∧ Sonnet.agmIter k a b ≤ a := by
  induction k generalizing a b with
  | zero =>
    simp only [Sonnet.agmIter]
    exact ⟨hba, le_refl a⟩
  | succ k ih =>
    rw [Sonnet.agmIter]
    split_ifs with hbr
    · exact ⟨hba, le_refl a⟩
    · have hab : 0 < a := lt_of_lt_of_le hb hba
      have hb1 : 0 < Real.sqrt (a * b) := Real.sqrt_pos.mpr (mul_pos hab hb)
      have hle : Real.sqrt (a * b) ≤ (a + b) / 2 := sqrt_mul_le_half_add a b hab.le hb.le
      obtain ⟨hl, hr⟩ := ih ((a + b) / 2) (Real.sqrt (a * b)) hb1 hle
      constructor
      · have h1 : b = Real.sqrt (b * b) := (Real.sqrt_mul_self hb.le).symm
        have h2 : Real.sqrt (b * b) ≤ Real.sqrt (a * b) :=
          Real.sqrt_le_sqrt (by nlinarith)
        linarith
      · have h3 : (a + b) / 2 ≤ a := by linarith
        linarith

lemma sqrt_three_quarters : Real.sqrt (3 / 4) = Real.sqrt 3 / 2 := by
  rw [show (3 / 4 : ℝ) = 3 / 4 from rfl, Real.sqrt_div' 3 (by norm_num : (0 : ℝ) ≤ 4)]
  rw [show (4 : ℝ) = 2 ^ 2 by norm_num, Real.sqrt_sq (by norm_num : (0 : ℝ) ≤ 2)]

lemma agm_sixty_bounds :
    10 / 11 < Sonnet.agmIter 25 1 (Real.sqrt 3 / 2) ∧
    Sonnet.agmIter 25 1 (Real.sqrt 3 / 2) < 0.94 := by
  have h3l : (1.7 : ℝ) < Real.sqrt 3 := (Real.lt_sqrt (by norm_num)).mpr (by norm_num)
  have h3u : Real.sqrt 3 < 1.74 := (Real.sqrt_lt' (by norm_num)).mpr (by norm_num)
  rw [show (25 : ℕ) = 24 + 1 from rfl, Sonnet.agmIter]
  have habs : |((1 : ℝ) + Real.sqrt 3 / 2) / 2 - 1| = (1 - Real.sqrt 3 / 2) / 2 := by
    rw [abs_of_nonpos (by linarith)]
    ring
  have hcond : ¬(|((1 : ℝ) + Real.sqrt 3 / 2) / 2 - 1| < 1e-15) := by
    rw [habs]
    intro hcon
    nlinarith
  rw [if_neg hcond]
  have hb1pos : (0 : ℝ) < Real.sqrt (1 * (Real.sqrt 3 / 2)) :=
    Real.sqrt_pos.mpr (by nlinarith)
  have hb1le : Real.sqrt (1 * (Real.sqrt 3 / 2)) ≤ (1 + Real.sqrt 3 / 2) / 2 :=
    sqrt_mul_le_half_add 1 (Real.sqrt 3 / 2) (by norm_num) (by nlinarith)
  obtain ⟨hl, hr⟩ := agmIter_bounds 24 ((1 + Real.sqrt 3 / 2) / 2)
    (Real.sqrt (1 * (Real.sqrt 3 / 2))) hb1pos hb1le
  constructor
  · have hq : (10 / 11 : ℝ) < Real.sqrt (1 * (Real.sqrt 3 / 2)) := by
      rw [one_mul]
      apply (Real.lt_sqrt (by norm_num)).mpr
      nlinarith
    linarith
  · have ha1 : ((1 : ℝ) + Real.sqrt 3 / 2) / 2 < 0.94 := by nlinarith
    linarith

lemma sonnet_at_sixty (L g th : ℝ) (h : th / 2 = Real.pi / 6) :
    Sonnet.compute_T_numerical L g th =
      4 * Real.sqrt (L / g) *
        (Real.pi / (2 * Sonnet.agmIter 25 1 (Real.sqrt 3 / 2))) := by
  rw [Sonnet.compute_T_numerical, h, Real.sin_pi_div_six,
    show (1 : ℝ) - (1 / 2) ^ 2 = 3 / 4 by norm_num, sqrt_three_quarters]

lemma gpt5_f_nonneg (eps th0 th : ℝ) : 0 ≤ Gpt5.f eps th0 th := by
  rw [Gpt5.f]
  positivity

lemma simpson_integral_ge_endpoint (fn : ℝ → ℝ) (b : ℝ) (n : ℕ)
    (hb : 0 ≤ b) (hfn : ∀ x, 0 ≤ fn x) :
    fn b * ((b - 0) / (n : ℝ)) / 3 ≤ Gpt5.simpson_integral fn 0 b n := by
  rw [Gpt5.simpson_integral]
  have hh : 0 ≤ (b - 0) / (n : ℝ) := div_nonneg (by linarith) (Nat.cast_nonneg n)
  have hsum : 0 ≤ ∑ i ∈ Finset.Ico 1 n,
      (if i % 2 = 1 then (4 : ℝ) else 2) * fn (0 + (i : ℝ) * ((b - 0) / (n : ℝ))) := by
    apply Finset.sum_nonneg
    intro i _
    have hfi := hfn (0 + (i : ℝ) * ((b - 0) / (n : ℝ)))
    split_ifs <;> nlinarith
  have hS : fn b ≤ fn 0 + fn b + ∑ i ∈ Finset.Ico 1 n,
      (if i % 2 = 1 then (4 : ℝ) else 2) * fn (0 + (i : ℝ) * ((b - 0) / (n : ℝ))) := by
    have := hfn 0
    linarith
  have hmul := mul_le_mul_of_nonneg_right hS hh
  linarith

/-- Claim C6: as stated the claim is false.  The claim covers the cited
gpt5 Strategy A evaluator at the named configuration, and there the
epsilon clamp makes the singular upper endpoint node contribute
(1 / sqrt (2e-10)) * h / 3, about 12.3, to an integral whose unclamped
value is about 1.69, so the computed period at 60 degrees exceeds
1.10 * T_small by far: every Simpson term is nonnegative, hence the
evaluator's value is at least 14.9 s while 1.10 * T_small is below
2.21 s. -/
theorem claim6_counterexample :
    1.10 * Gpt5.T0_const 1 9.80665 <
      Gpt5.compute_true_period 1 9.80665 (1e-10) (60 * Real.pi / 180) 2000 := by
  have hpi3 := Real.pi_gt_three
  have hpid4 := Real.pi_lt_d4
  have hthpos : (0 : ℝ) ≤ 60 * Real.pi / 180 := by positivity
  have hfb : Gpt5.f (1e-10) (60 * Real.pi / 180) (60 * Real.pi / 180) =
      1 / Real.sqrt (2 * 1e-10) := by
    rw [Gpt5.f, sub_self, max_eq_right (by norm_num : (0 : ℝ) ≤ 1e-10)]
  have hkey := simpson_integral_ge_endpoint (Gpt5.f (1e-10) (60 * Real.pi / 180))
    (60 * Real.pi / 180) 2000 hthpos (fun x => gpt5_f_nonneg _ _ x)
  rw [hfb] at hkey
  rw [Gpt5.compute_true_period, Gpt5.T0_const]
  have hs0 : 0 ≤ Real.sqrt (1 / 9.80665) := Real.sqrt_nonneg _
  have hs_lo : (0.3193299 : ℝ) ≤ Real.sqrt (1 / 9.80665) :=
    (Real.le_sqrt (by norm_num) (by norm_num)).mpr (by norm_num)
  have hs_hi : Real.sqrt (1 / 9.80665) ≤ 0.31933 :=
    (Real.sqrt_le_left (by norm_num)).mpr (by norm_num)
  have hq0 : (0 : ℝ) ≤ 1 / Real.sqrt (2 * 1e-10) := by positivity
  have hq_lo : (70000 : ℝ) ≤ 1 / Real.sqrt (2 * 1e-10) := by
    have h1 : Real.sqrt (2 * 1e-10) ≤ 1 / 70000 :=
      (Real.sqrt_le_left (by norm_num)).mpr (by norm_num)
    have h2 : 0 < Real.sqrt (2 * 1e-10) := Real.sqrt_pos.mpr (by norm_num)
    calc (70000 : ℝ) = 1 / (1 / 70000) := by norm_num
      _ ≤ 1 / Real.sqrt (2 * 1e-10) := one_div_le_one_div_of_le h2 h1
  have hstep : 4 * Real.sqrt (1 / 9.80665) *
      (1 / Real.sqrt (2 * 1e-10) * ((60 * Real.pi / 180 - 0) / (2000 : ℝ)) / 3) ≤
      4 * Real.sqrt (1 / 9.80665) *
        Gpt5.simpson_integral (Gpt5.f (1e-10) (60 * Real.pi / 180)) 0
          (60 * Real.pi / 180) 2000 :=
    mul_le_mul_of_nonneg_left hkey (by positivity)
  have hprod1 : (210000 : ℝ) ≤ 1 / Real.sqrt (2 * 1e-10) * Real.pi := by
    have := mul_le_mul hq_lo hpi3.le (by norm_num) hq0
    linarith
  have hprod2 : (67059 : ℝ) ≤ Real.sqrt (1 / 9.80665) *
      (1 / Real.sqrt (2 * 1e-10) * Real.pi) := by
    have := mul_le_mul hs_lo hprod1 (by norm_num) hs0
    linarith
  have hupper : 1.10 * (2 * Real.pi * Real.sqrt (1 / 9.80665)) ≤ 2.21 := by
    have hps : Real.pi * Real.sqrt (1 / 9.80665) ≤ 3.1416 * 0.31933 :=
      mul_le_mul hpid4.le hs_hi hs0 (by norm_num)
    nlinarith
  nlinarith [hstep, hprod2, hupper]

/-- Claim C6 (amended): the bracket does hold for the cited sonnet AGM
evaluator: with L = 1, g = 9.80665 and the grid angle 60 degrees (in
radians 60 * pi / 180), its computed period lies strictly between T_small
and 1.10 * T_small; the cited gpt5 Strategy A evaluator violates the
bracket at this configuration, its endpoint clamp inflating the result
beyond 1.10 * T_small (see the counterexample). -/
theorem claim6_theorem :
    Gpt5.T0_const 1 9.80665 <
      Sonnet.compute_T_numerical 1 9.80665 (60 * Real.pi / 180) ∧
    Sonnet.compute_T_numerical 1 9.80665 (60 * Real.pi / 180) <
      1.10 * Gpt5.T0_const 1 9.80665 := by
  rw [sonnet_at_sixty 1 9.80665 (60 * Real.pi / 180) (by ring), Gpt5.T0_const]
  obtain ⟨hlo, hhi⟩ := agm_sixty_bounds
  set m : ℝ := Sonnet.agmIter 25 1 (Real.sqrt 3 / 2) with hm
  have hmpos : 0 < m := lt_trans (by norm_num) hlo
  have hs : (0 : ℝ) < Real.sqrt (1 / 9.80665) := Real.sqrt_pos.mpr (by norm_num)
  have hform : 4 * Real.sqrt (1 / 9.80665) * (Real.pi / (2 * m)) =
      2 * Real.pi * Real.sqrt (1 / 9.80665) / m := by
    field_simp
    ring
  rw [hform]
  have hbase : 0 < 2 * Real.pi * Real.sqrt (1 / 9.80665) := by
    have := Real.pi_pos
    positivity
  constructor
  · rw [lt_div_iff₀ hmpos]
    nlinarith
  · rw [div_lt_iff₀ hmpos]
    nlinarith

lemma agm_break_at_once (b : ℝ) (hb1 : b ≤ 1) (hb : 1 - b < 2e-15) :
    Sonnet.agmIter 25 1 b = 1 := by
  rw [show (25 : ℕ) = 24 + 1 from rfl, Sonnet.agmIter]
  have habs : |((1 : ℝ) + b) / 2 - 1| = (1 - b) / 2 := by
    rw [abs_of_nonpos (by linarith)]
    ring
  have hcond : |((1 : ℝ) + b) / 2 - 1| < 1e-15 := by
    rw [habs]
    linarith
  rw [if_pos hcond]

lemma tiny_angle_period (th : ℝ) (h0 : 0 ≤ th) (hsmall : th ≤ 1e-8) :
    Sonnet.compute_T_numerical 1 9.80665 th =
      4 * Real.sqrt (1 / 9.80665) * (Real.pi / 2) := by
  rw [Sonnet.compute_T_numerical]
  have hb1 : Real.sqrt (1 - Real.sin (th / 2) ^ 2) ≤ 1 := by
    calc Real.sqrt (1 - Real.sin (th / 2) ^ 2) ≤ Real.sqrt 1 :=
        Real.sqrt_le_sqrt (by nlinarith [sq_nonneg (Real.sin (th / 2))])
      _ = 1 := Real.sqrt_one
  have hcos : Real.cos (th / 2) ≤ Real.sqrt (1 - Real.sin (th / 2) ^ 2) := by
    have hid : 1 - Real.sin (th / 2) ^ 2 = Real.cos (th / 2) ^ 2 := by
      nlinarith [Real.sin_sq_add_cos_sq (th / 2)]
    rw [hid, Real.sqrt_sq_eq_abs]
    exact le_abs_self _
  have hq : 1 - Real.sqrt (1 - Real.sin (th / 2) ^ 2) < 2e-15 := by
    have h1 : 1 - (th / 2) ^ 2 / 2 ≤ Real.cos (th / 2) := Real.one_sub_sq_div_two_le_cos
    have hth2 : th ^ 2 ≤ 1e-16 := by nlinarith
    nlinarith
  rw [agm_break_at_once _ hb1 hq]
  norm_num

/-- Claim C9: as stated the claim is false.  The sonnet AGM evaluator
breaks out of its loop as soon as the update moves a by less than 1e-15,
so for two distinct tiny amplitudes (here 1e-7 and 2e-7 degrees, both in
(0, 90)) the very first update is already below the threshold and both
angles are mapped to exactly the same period 2 * pi * sqrt (L / g): the
computed period is not strictly increasing on (0, 90) degrees. -/
theorem claim9_counterexample :
    (0 : ℝ) < 1e-7 ∧ (1e-7 : ℝ) < 2e-7 ∧ (2e-7 : ℝ) < 90 ∧
    ¬(Sonnet.compute_T_numerical 1 9.80665 (1e-7 * Real.pi / 180) <
        Sonnet.compute_T_numerical 1 9.80665 (2e-7 * Real.pi / 180)) := by
  have hpi4 := Real.pi_lt_four
  have hpip := Real.pi_pos
  have e1 := tiny_angle_period (1e-7 * Real.pi / 180) (by positivity) (by nlinarith)
  have e2 := tiny_angle_period (2e-7 * Real.pi / 180) (by positivity) (by nlinarith)
  refine ⟨by norm_num, by norm_num, by norm_num, ?_⟩
  rw [e1, e2]
  exact lt_irrefl _

/-- Claim C9 (amended): the implemented exact-period evaluator is not
strictly increasing over all of (0, 90) degrees — amplitudes below the AGM
convergence threshold collapse to the same value — but for well-separated
amplitudes the period does grow strictly: for every positive L and g the
sonnet evaluator satisfies T_exact(30 degrees) < T_exact(60 degrees). -/
theorem claim9_theorem (L g : ℝ) (hL : 0 < L) (hg : 0 < g) :
    Sonnet.compute_T_numerical L g (Real.pi / 6) <
      Sonnet.compute_T_numerical L g (Real.pi / 3) := by
  have hs : 0 < Real.sqrt (L / g) := Real.sqrt_pos.mpr (div_pos hL hg)
  rw [sonnet_at_sixty L g (Real.pi / 3) (by ring), Sonnet.compute_T_numerical]
  rw [show Real.pi / 6 / 2 = Real.pi / 12 by ring]
  have hpi4 := Real.pi_lt_four
  have hpid4 := Real.pi_lt_d4
  have hpip := Real.pi_pos
  have hcos12pos : 0 < Real.cos (Real.pi / 12) := by
    apply Real.cos_pos_of_mem_Ioo
    constructor
    · nlinarith
    · nlinarith
  have hb30 : Real.sqrt (1 - Real.sin (Real.pi / 12) ^ 2) = Real.cos (Real.pi / 12) := by
    have hid : 1 - Real.sin (Real.pi / 12) ^ 2 = Real.cos (Real.pi / 12) ^ 2 := by
      nlinarith [Real.sin_sq_add_cos_sq (Real.pi / 12)]
    rw [hid, Real.sqrt_sq hcos12pos.le]
  rw [hb30]
  have hc12le1 : Real.cos (Real.pi / 12) ≤ 1 := Real.cos_le_one _
  obtain ⟨h30lo, _h30hi⟩ := agmIter_bounds 25 1 (Real.cos (Real.pi / 12)) hcos12pos hc12le1
  have hcb : (0.96 : ℝ) < Real.cos (Real.pi / 12) := by
    have h1 : 1 - (Real.pi / 12) ^ 2 / 2 ≤ Real.cos (Real.pi / 12) :=
      Real.one_sub_sq_div_two_le_cos
    nlinarith
  obtain ⟨h60lo, h60hi⟩ := agm_sixty_bounds
  have h60pos : 0 < Sonnet.agmIter 25 1 (Real.sqrt 3 / 2) := lt_trans (by norm_num) h60lo
  have h30pos : 0 < Sonnet.agmIter 25 1 (Real.cos (Real.pi / 12)) :=
    lt_of_lt_of_le hcos12pos h30lo
  have hK : Real.pi / (2 * Sonnet.agmIter 25 1 (Real.cos (Real.pi / 12))) <
      Real.pi / (2 * Sonnet.agmIter 25 1 (Real.sqrt 3 / 2)) := by
    apply div_lt_div_of_pos_left hpip (by linarith)
    nlinarith
  exact mul_lt_mul_of_pos_left hK (by positivity)

/-- Claim C9 witness: the amended strict growth at L = 1, g = 9.80665. -/
theorem claim9_witness :
    (0 : ℝ) < 1 ∧ (0 : ℝ) < 9.80665 ∧
    Sonnet.compute_T_numerical 1 9.80665 (Real.pi / 6) <
      Sonnet.compute_T_numerical 1 9.80665 (Real.pi / 3) :=
  ⟨by norm_num, by norm_num, claim9_theorem 1 9.80665 (by norm_num) (by norm_num)⟩

end Pendulum
